import Mathlib

set_option maxHeartbeats 1000000

/-! Verification development for the Mitabo video application: a shallow
embedding of the media ingestion and HLS packaging pipeline of src/home.py
and of the Video playback model of src/models.py, with theorems settling the
spec claims about them. -/

namespace Mitabo

/-! ## Basic path and string helpers -/

/-- Joins two path components with a slash, as os.path.join does for
relative posix components without trailing separators. -/
def pjoin (a b : String) : String := a ++ "/" ++ b

/-- ALLOWED_EXTENSIONS from src/home.py. -/
def ALLOWED_EXTENSIONS : List String := ["mp4", "webm", "ogg", "mov", "m4v"]

/-- The category ids of CATEGORIES from src/home.py (the keys of
CATEGORIES_MAP). -/
def CATEGORY_IDS : List String :=
  ["tendance", "jeux", "musique", "film", "sports", "football", "basket",
   "skateboard", "tennis", "politique", "france", "alsace", "paris",
   "iledefrance", "grandest", "actualite", "divertissement", "usa", "ue"]

/-- The characters after the last dot of a character list; on a dot-free list
this returns the whole list. This is the tail component of the Python
rsplit at the last dot. -/
def afterLastDot (l : List Char) : List Char :=
  (l.reverse.takeWhile (fun c => c != '.')).reverse

/-- Embeds allowed_file of src/home.py: the name must contain a dot and the
lowercased extension after the last dot must be an allowed extension.
Char.toLower embeds the Python lower call on the ASCII extensions involved. -/
def allowed_file (filename : String) : Bool :=
  filename.data.contains '.' &&
    ALLOWED_EXTENSIONS.contains (String.mk ((afterLastDot filename.data).map Char.toLower))

/-- Embeds ffmpeg_exists of src/home.py. The shutil.which lookup on the host
executable search path is an oracle passed as a function from binary name to
an optional resolved path; the probe is true exactly when the lookup
resolves. -/
def ffmpeg_exists (which : String → Option String) : Bool :=
  (which "ffmpeg").isSome

/-! ## The constructed ffmpeg command and the synthesized master manifest -/

/-- Embeds the cmd list built by transcode_to_hls of src/home.py, one Lean
string per argv element, with the two os.path.join output patterns inlined
through pjoin. -/
def hlsCmd (input_path target_dir : String) : List String :=
  ["ffmpeg", "-y", "-i", input_path,
   "-filter:v:0", "scale=w=640:h=360:force_original_aspect_ratio=decrease",
   "-c:a:0", "aac", "-ar:0", "48000", "-c:v:0", "h264", "-profile:v:0", "main",
   "-crf:0", "23", "-sc_threshold", "0", "-g", "48", "-keyint_min", "48",
   "-filter:v:1", "scale=w=1280:h=720:force_original_aspect_ratio=decrease",
   "-c:a:1", "aac", "-ar:1", "48000", "-c:v:1", "h264", "-profile:v:1", "main",
   "-crf:1", "21", "-sc_threshold", "0", "-g", "48", "-keyint_min", "48",
   "-map", "0:v:0", "-map", "0:a:0?", "-map", "0:v:0", "-map", "0:a:0?",
   "-var_stream_map", "v:0,a:0 v:1,a:1", "-master_pl_name", "master.m3u8",
   "-f", "hls", "-hls_time", "4", "-hls_playlist_type", "vod",
   "-hls_segment_filename", pjoin target_dir "v%v/seg_%03d.ts",
   pjoin target_dir "v%v/index.m3u8"]

/-- The first write call of the synthesized master manifest in
transcode_to_hls: header and version lines. -/
def masterHeaderPart : String := "#EXTM3U\n#EXT-X-VERSION:3\n"

/-- The second write call: the low quality variant declaration and its
sub-manifest path. -/
def lowStreamPart : String :=
  "#EXT-X-STREAM-INF:BANDWIDTH=800000,RESOLUTION=640x360\nv0/index.m3u8\n"

/-- The third write call: the high quality variant declaration and its
sub-manifest path. -/
def highStreamPart : String :=
  "#EXT-X-STREAM-INF:BANDWIDTH=2500000,RESOLUTION=1280x720\nv1/index.m3u8\n"

/-- The full content the manifest-repair step writes when master.m3u8 is
absent: the three write calls in source order. -/
def masterManifestContent : String := masterHeaderPart ++ lowStreamPart ++ highStreamPart

/-! ## Filesystem model and the packaging job -/

/-- A filesystem fragment modelled as an association list from path to file
content; the most recent write stands first and shadows older entries. -/
abbrev FS := List (String × String)

/-- Embeds the manifest-repair step inlined at the end of transcode_to_hls in
src/home.py: when master.m3u8 is absent under the target directory, write the
minimal master manifest; otherwise leave the filesystem untouched. -/
def ensure_manifest (fs : FS) (target_dir : String) : FS :=
  let master_path := pjoin target_dir "master.m3u8"
  if (List.lookup master_path fs).isSome then fs
  else (master_path, masterManifestContent) :: fs

/-- Embeds os.path.relpath for the only case the code exercises, a path lying
strictly under start: the start prefix plus separator is dropped. A path not
under start, which real relpath would express with dot-dot segments, is
returned unchanged; no theorem depends on that branch. -/
def relpath (path start : String) : String :=
  let pre := start ++ "/"
  if List.isPrefixOf pre.data path.data then String.mk (path.data.drop pre.data.length)
  else path

/-- Embeds the final replace of backslash by slash on the returned relative
path, characterwise, as Python str.replace acts on the one-character
pattern. -/
def replaceBackslashes (s : String) : String :=
  String.mk (s.data.map (fun c => if c = '\\' then '/' else c))

/-- One run of the external ffmpeg process: its exit status, the characters
it wrote to stderr, and the output files it wrote to the filesystem. -/
structure EngineRun where
  exitCode : Nat
  stderrData : List Char
  writes : List (String × String)

/-- What the failure path of transcode_to_hls produces: the print statement
logs the decoded stderr truncated to its first 2000 characters, and the bare
raise re-raises the CalledProcessError, which carries the full stderr. -/
structure FfmpegFailure where
  raisedStderr : List Char
  logged : List Char

/-- Applies the files an engine run wrote onto the filesystem model. -/
def applyWrites (fs : FS) (ws : List (String × String)) : FS :=
  ws.foldl (fun acc pc => pc :: acc) fs

/-- HLS_DIR from src/home.py: the hls directory under the application base
directory. -/
def HLS_DIR (base_dir : String) : String := pjoin base_dir "hls"

/-- Embeds transcode_to_hls of src/home.py. The external engine is an oracle
from the constructed command to a process run. On non-zero exit the function
re-raises the process error after logging a truncated diagnostic and reaches
neither manifest repair nor the return; on success it applies the engine
writes, runs manifest repair, and returns the master manifest path relative
to HLS_DIR with backslashes normalised, together with the final
filesystem. -/
def transcode_to_hls (base_dir : String) (engine : List String → EngineRun)
    (input_path target_dir : String) (fs : FS) :
    Except FfmpegFailure (String × FS) :=
  let master_path := pjoin target_dir "master.m3u8"
  let cmd := hlsCmd input_path target_dir
  let run := engine cmd
  if run.exitCode = 0 then
    let fs1 := applyWrites fs run.writes
    let fs2 := ensure_manifest fs1 target_dir
    Except.ok (replaceBackslashes (relpath master_path (HLS_DIR base_dir)), fs2)
  else
    Except.error { raisedStderr := run.stderrData, logged := run.stderrData.take 2000 }

/-- The manifest path a packaging result returned, none on failure. -/
def manifestOf (r : Except FfmpegFailure (String × FS)) : Option String :=
  match r with
  | Except.ok st => some st.1
  | Except.error _ => none

/-- The length of the stderr the raised error carries, zero on success. -/
def raisedStderrLen (r : Except FfmpegFailure (String × FS)) : Nat :=
  match r with
  | Except.ok _ => 0
  | Except.error e => e.raisedStderr.length

/-- The length of the logged diagnostic, zero on success. -/
def loggedLen (r : Except FfmpegFailure (String × FS)) : Nat :=
  match r with
  | Except.ok _ => 0
  | Except.error e => e.logged.length

/-! ## The Video model of src/models.py -/

/-- Python truthiness of an optional string column: None and the empty string
are both falsy. -/
def truthy : Option String → Bool
  | none => false
  | some s => s != ""

/-- The playback-relevant columns of the Video model of src/models.py. -/
structure Video where
  filename : Option String
  external_url : Option String
  hls_manifest : Option String

/-- The url_for result for the hls route of src/home.py. -/
def url_for_hls (filename : String) : String := "/hls/" ++ filename

/-- The url_for result for the media route of src/home.py. -/
def url_for_media (filename : String) : String := "/media/" ++ filename

/-- Embeds the source_url property of Video in src/models.py: priority one is
the external Supabase URL, priority two the HLS manifest, priority three the
local file, else the empty string. -/
def Video.source_url (v : Video) : String :=
  if truthy v.external_url then v.external_url.getD ""
  else if truthy v.hls_manifest then url_for_hls (v.hls_manifest.getD "")
  else if truthy v.filename then url_for_media (v.filename.getD "")
  else ""

/-! ## The upload handler of src/home.py -/

/-- The uploaded file part of the request, as the handler reads it. -/
structure FileUpload where
  filename : String

/-- The form fields of the upload request that the handler reads. A missing
form field is none; to_hls is whether the checkbox field is present at
all. -/
structure UploadRequest where
  file : Option FileUpload
  title : Option String
  description : Option String
  category : Option String
  creator : Option String
  to_hls : Bool

/-- The collaborators and host state upload_post touches: the werkzeug
secure name sanitiser as an oracle, the names already present in UPLOAD_DIR,
whether ffmpeg is on the executable search path, and the Supabase blob-store
collaborator reduced to configuration, success and the public URL it
returns. -/
structure UploadEnv where
  secure_filename : String → String
  existingUploads : List String
  ffmpegOnPath : Bool
  supabaseConfigured : Bool
  supabaseUploadOk : Bool
  publicUrl : String
  displayName : String

/-- The redirect-to-form outcomes of upload_post, one per flash site. -/
inductive RedirectReason where
  | noFile
  | badExtension
  | supabaseUploadError
  | supabaseNotConfigured

/-- The Video row upload_post constructs and commits on success, restricted
to the columns it passes. -/
structure VideoRow where
  title : String
  description : String
  category : String
  filename : Option String
  thumb_url : String
  duration : String
  creator : String
  external_url : Option String
  hls_manifest : Option String

/-- The observable outcome of one upload_post request. -/
inductive UploadOutcome where
  | redirectForm (why : RedirectReason)
  | created (v : VideoRow)

/-- The outcome of the handler paired with the number of transcode_to_hls
invocations the handler performed while producing it. -/
structure UploadResult where
  outcome : UploadOutcome
  transcodeCalls : Nat

/-- Embeds the Python idiom of a form field with an or-default: None and the
empty string fall back to the default. -/
def orElseStr (o : Option String) (d : String) : String :=
  match o with
  | none => d
  | some s => if s = "" then d else s

/-- Embeds the Python strip call: leading and trailing whitespace removed. -/
def stripStr (s : String) : String :=
  String.mk (((s.data.dropWhile Char.isWhitespace).reverse.dropWhile Char.isWhitespace).reverse)

/-- Embeds os.path.splitext for names without the leading-dot corner: split
at the last dot, the dot staying on the extension; a dot-free name has an
empty extension. The leading-dot corner of real splitext is not exercised by
any theorem. -/
def splitext (s : String) : String × String :=
  if s.data.contains '.' then
    (String.mk (s.data.take (s.data.length - (afterLastDot s.data).length - 1)),
     String.mk ('.' :: afterLastDot s.data))
  else (s, "")

/-- Embeds the collision-avoiding while loop of upload_post: the final name
is the first of filename, base-1 ext, base-2 ext, and so on that is not
already present. The candidates are pairwise distinct, so scanning one more
candidate than there are existing names always finds a free one and the
fallback branch is unreachable. -/
def finalName (filename base ext : String) (existing : List String) : String :=
  let candidates := filename ::
    (List.range (existing.length + 1)).map (fun k => base ++ "-" ++ toString (k + 1) ++ ext)
  match candidates.find? (fun c => !(existing.contains c)) with
  | some c => c
  | none => filename

/-- Embeds upload_post of src/home.py. The handler reads the to_hls form
flag into a local that the rest of the body never uses: the body contains no
call to transcode_to_hls and never consults ffmpeg_exists, so every branch
performs zero packaging invocations, and the Video row it commits passes no
hls_manifest, leaving the column at its null default. On success the
Supabase public URL is recorded as external_url. -/
def upload_post (req : UploadRequest) (env : UploadEnv) : UploadResult :=
  match req.file with
  | none =>
    { outcome := UploadOutcome.redirectForm RedirectReason.noFile, transcodeCalls := 0 }
  | some f =>
    if f.filename = "" then
      { outcome := UploadOutcome.redirectForm RedirectReason.noFile, transcodeCalls := 0 }
    else if !(allowed_file f.filename) then
      { outcome := UploadOutcome.redirectForm RedirectReason.badExtension, transcodeCalls := 0 }
    else
      let title := stripStr (orElseStr req.title "Sans titre")
      let description := stripStr (orElseStr req.description "")
      let category := orElseStr req.category "tendance"
      let creator := stripStr (orElseStr req.creator env.displayName)
      let filename := env.secure_filename f.filename
      let be := splitext filename
      let final := finalName filename be.1 be.2 env.existingUploads
      if env.supabaseConfigured then
        if env.supabaseUploadOk then
          { outcome := UploadOutcome.created
              { title := title
                description := description
                category := if CATEGORY_IDS.contains category then category else "tendance"
                filename := some final
                thumb_url := "https://picsum.photos/seed/mitabo-" ++ be.1 ++ "/640/360"
                duration := ""
                creator := creator
                external_url := some env.publicUrl
                hls_manifest := none }
            transcodeCalls := 0 }
        else
          { outcome := UploadOutcome.redirectForm RedirectReason.supabaseUploadError,
            transcodeCalls := 0 }
      else
        { outcome := UploadOutcome.redirectForm RedirectReason.supabaseNotConfigured,
          transcodeCalls := 0 }

/-- The Video row a handler result committed, none on a redirect. -/
def createdRow (r : UploadResult) : Option VideoRow :=
  match r.outcome with
  | UploadOutcome.created v => some v
  | UploadOutcome.redirectForm _ => none

/-- The hls_manifest column of the committed row, none when no row was
committed or the column is unset. -/
def createdHlsManifest (r : UploadResult) : Option String :=
  match createdRow r with
  | some v => v.hls_manifest
  | none => none

/-! ## Manifest parsing helpers for the ordering claims -/

/-- Splits a character list at newline characters. -/
def splitLines : List Char → List (List Char)
  | [] => [[]]
  | c :: cs =>
    let r := splitLines cs
    if c = '\n' then [] :: r
    else
      match r with
      | [] => [[c]]
      | y :: ys => (c :: y) :: ys

/-- The characters after the first occurrence of a token inside a line, none
when the token does not occur. -/
def afterToken (tok : List Char) : List Char → Option (List Char)
  | [] => if tok = [] then some [] else none
  | c :: cs =>
    if List.isPrefixOf tok (c :: cs) then some ((c :: cs).drop tok.length)
    else afterToken tok cs

/-- The RESOLUTION values of the variant declaration lines of a manifest, in
listing order. -/
def streamVariantResolutions (s : String) : List (List Char) :=
  (splitLines s.data).filterMap (fun line =>
    if List.isPrefixOf "#EXT-X-STREAM-INF:".data line then afterToken "RESOLUTION=".data line
    else none)

/-! ## The decrease scale semantics -/

/-- Modelled from the spec: the external transcoding engine is not part of
the repository, and the spec describes the decrease scale-filter semantics as
producing the largest output that fits within the target box without
exceeding the original while preserving the aspect ratio. With s the least
of one, tw over w and th over h, the output is s times the original
dimensions. -/
def scaleDecrease (tw th w h : ℚ) : ℚ × ℚ :=
  let s := min 1 (min (tw / w) (th / h))
  (s * w, s * h)

/-! ## Claim C1: playback source selection -/

/-- A video row with a direct URL, an HLS manifest and a local file all
set. -/
def c1Video : Video :=
  { filename := some "v.mp4"
    external_url := some "https://cdn.example/v.mp4"
    hls_manifest := some "abc/master.m3u8" }

/-- C1 counterexample: on a Video carrying both a direct URL and a manifest
reference, source_url returns the direct URL and not the manifest URL, so
the manifest reference does not take precedence over the direct URL. -/
theorem c1_counterexample :
    truthy c1Video.hls_manifest = true ∧
    Video.source_url c1Video = "https://cdn.example/v.mp4" ∧
    Video.source_url c1Video ≠ url_for_hls "abc/master.m3u8" := by
  refine ⟨rfl, rfl, ?_⟩
  decide

/-- C1 (amended): the direct URL takes first precedence; when the direct URL
is absent or empty and a manifest reference is present, source_url returns
the manifest URL, and the local file is used only when the manifest
reference is also absent. -/
theorem c1_hls_over_local (v : Video)
    (hext : truthy v.external_url = false)
    (hhls : truthy v.hls_manifest = true) :
    Video.source_url v = url_for_hls (v.hls_manifest.getD "") := by
  unfold Video.source_url
  rw [hext, hhls]
  simp

/-- A video row with no direct URL and a manifest reference present. -/
def c1WitnessVideo : Video :=
  { filename := none, external_url := none, hls_manifest := some "m/master.m3u8" }

/-- Witness for C1 at a concrete video without a direct URL. -/
theorem c1_hls_over_local_witness :
    truthy c1WitnessVideo.external_url = false ∧
    truthy c1WitnessVideo.hls_manifest = true ∧
    Video.source_url c1WitnessVideo = url_for_hls (c1WitnessVideo.hls_manifest.getD "") :=
  ⟨rfl, rfl, c1_hls_over_local c1WitnessVideo rfl rfl⟩

/-! ## Claims C2 and C3: the handler and the packaging job -/

/-- A handler result never contains a packaging invocation and never commits
a row with a manifest reference: the body of upload_post has no
transcode_to_hls call site on any branch. -/
theorem upload_post_never_packages (req : UploadRequest) (env : UploadEnv) :
    (upload_post req env).transcodeCalls = 0 ∧
    createdHlsManifest (upload_post req env) = none := by
  unfold upload_post
  cases req.file with
  | none => exact ⟨rfl, rfl⟩
  | some f =>
    dsimp only
    split
    · exact ⟨rfl, rfl⟩
    · split
      · exact ⟨rfl, rfl⟩
      · split
        · split
          · exact ⟨rfl, rfl⟩
          · exact ⟨rfl, rfl⟩
        · exact ⟨rfl, rfl⟩

/-- An upload request with the packaging flag set. -/
def c2Request : UploadRequest :=
  { file := some { filename := "clip.mp4" }
    title := some "Demo"
    description := some ""
    category := some "tendance"
    creator := some "demo"
    to_hls := true }

/-- A host with ffmpeg on the path and a working Supabase store. -/
def c2Env : UploadEnv :=
  { secure_filename := fun s => s
    existingUploads := []
    ffmpegOnPath := true
    supabaseConfigured := true
    supabaseUploadOk := true
    publicUrl := "https://supabase.example/videos/clip.mp4"
    displayName := "demo" }

/-- C2: at a request with the packaging flag set on a host with the
capability present, the handler succeeds in committing a row yet performs
zero packaging invocations and the committed row carries no manifest
reference: the orchestration the claim describes is never reached by the
code. -/
theorem c2_no_packaging_run :
    c2Request.to_hls = true ∧
    c2Env.ffmpegOnPath = true ∧
    (upload_post c2Request c2Env).transcodeCalls = 0 ∧
    (createdRow (upload_post c2Request c2Env)).isSome = true ∧
    createdHlsManifest (upload_post c2Request c2Env) = none := by
  exact ⟨rfl, rfl, rfl, rfl, rfl⟩

/-- C3: when the capability probe is false or the packaging flag is unset,
the handler performs zero packaging invocations and any committed row has no
manifest reference. -/
theorem c3_no_packaging (req : UploadRequest) (env : UploadEnv)
    (_h : env.ffmpegOnPath = false ∨ req.to_hls = false) :
    (upload_post req env).transcodeCalls = 0 ∧
    createdHlsManifest (upload_post req env) = none :=
  upload_post_never_packages req env

/-- An upload request with the packaging flag not set. -/
def c3Request : UploadRequest :=
  { file := some { filename := "a.mp4" }
    title := none
    description := none
    category := none
    creator := none
    to_hls := false }

/-- A host environment for the C3 witness. -/
def c3Env : UploadEnv :=
  { secure_filename := fun s => s
    existingUploads := []
    ffmpegOnPath := true
    supabaseConfigured := true
    supabaseUploadOk := true
    publicUrl := "https://supabase.example/videos/a.mp4"
    displayName := "demo" }

/-- Witness for C3 at a concrete request without the packaging flag. -/
theorem c3_no_packaging_witness :
    c3Request.to_hls = false ∧
    (upload_post c3Request c3Env).transcodeCalls = 0 ∧
    createdHlsManifest (upload_post c3Request c3Env) = none :=
  ⟨rfl, (c3_no_packaging c3Request c3Env (Or.inr rfl)).1,
    (c3_no_packaging c3Request c3Env (Or.inr rfl)).2⟩

/-! ## Claim C4: the capability probe -/

/-- C4: the probe is a total boolean function of the path-lookup oracle,
true exactly when the lookup resolves the ffmpeg binary and false when it is
unresolvable; as a total Lean function it has no effects and cannot
raise. -/
theorem c4_ffmpeg_exists_iff (which : String → Option String) :
    (ffmpeg_exists which = true ↔ ∃ p, which "ffmpeg" = some p) ∧
    (which "ffmpeg" = none → ffmpeg_exists which = false) := by
  unfold ffmpeg_exists
  constructor
  · exact Option.isSome_iff_exists
  · intro h
    rw [h]
    rfl

/-! ## Claim C7: engine failure handling -/

/-- An engine whose run always exits one with a 2001 character stderr. -/
def c7Engine : List String → EngineRun :=
  fun _ => { exitCode := 1, stderrData := List.replicate 2001 'a', writes := [] }

/-- C7 counterexample: on a failing run whose stderr is 2001 characters
long, the raised error carries all 2001 characters, more than the 2000
character truncation the claim states for the raised diagnostic, while no
manifest path is returned. -/
theorem c7_counterexample :
    raisedStderrLen (transcode_to_hls "app" c7Engine "in.mp4" "app/hls/x" []) = 2001 ∧
    2000 < raisedStderrLen (transcode_to_hls "app" c7Engine "in.mp4" "app/hls/x" []) ∧
    manifestOf (transcode_to_hls "app" c7Engine "in.mp4" "app/hls/x" []) = none := by
  have h : raisedStderrLen (transcode_to_hls "app" c7Engine "in.mp4" "app/hls/x" []) = 2001 := by
    show (List.replicate 2001 'a').length = 2001
    exact List.length_replicate 2001 'a'
  refine ⟨h, ?_, rfl⟩
  rw [h]
  norm_num

/-- C7 (amended): on non-zero engine exit, transcode_to_hls raises to its
caller an error carrying the full stderr while the logged diagnostic is the
stderr truncated to at most 2000 characters, and it neither reaches manifest
repair nor returns a manifest path. -/
theorem c7_engine_failure (base_dir input_path target_dir : String)
    (engine : List String → EngineRun) (fs : FS)
    (hexit : (engine (hlsCmd input_path target_dir)).exitCode ≠ 0) :
    transcode_to_hls base_dir engine input_path target_dir fs =
      Except.error
        { raisedStderr := (engine (hlsCmd input_path target_dir)).stderrData
          logged := (engine (hlsCmd input_path target_dir)).stderrData.take 2000 } ∧
    manifestOf (transcode_to_hls base_dir engine input_path target_dir fs) = none ∧
    loggedLen (transcode_to_hls base_dir engine input_path target_dir fs) ≤ 2000 := by
  have key : transcode_to_hls base_dir engine input_path target_dir fs =
      Except.error
        { raisedStderr := (engine (hlsCmd input_path target_dir)).stderrData
          logged := (engine (hlsCmd input_path target_dir)).stderrData.take 2000 } := by
    simp only [transcode_to_hls]
    rw [if_neg hexit]
  refine ⟨key, ?_, ?_⟩
  · rw [key]
    rfl
  · rw [key]
    show (List.take 2000 (engine (hlsCmd input_path target_dir)).stderrData).length ≤ 2000
    exact List.length_take_le 2000 _

/-- Witness for C7 at a concrete failing engine. -/
theorem c7_engine_failure_witness :
    transcode_to_hls "app" c7Engine "clip.mp4" "app/hls/y" [] =
      Except.error
        { raisedStderr := (c7Engine (hlsCmd "clip.mp4" "app/hls/y")).stderrData
          logged := (c7Engine (hlsCmd "clip.mp4" "app/hls/y")).stderrData.take 2000 } ∧
    manifestOf (transcode_to_hls "app" c7Engine "clip.mp4" "app/hls/y" []) = none ∧
    loggedLen (transcode_to_hls "app" c7Engine "clip.mp4" "app/hls/y" []) ≤ 2000 :=
  c7_engine_failure "app" "clip.mp4" "app/hls/y" c7Engine [] (by decide)

/-! ## String and list helper lemmas -/

/-- Appending strings appends their character data. -/
theorem data_append (a b : String) : (a ++ b).data = a.data ++ b.data := by
  cases a
  cases b
  rfl

/-- Rebuilding a string from its character data is the identity. -/
theorem mk_data (s : String) : String.mk s.data = s := rfl

/-- A list is a boolean prefix of itself followed by anything. -/
theorem isPrefixOf_self_append (l t : List Char) : List.isPrefixOf l (l ++ t) = true := by
  induction l with
  | nil => simp [List.isPrefixOf]
  | cons c cs ih => simp [List.isPrefixOf, ih]

/-- The embedded relpath drops the start component from a path lying under
it. -/
theorem relpath_pjoin (s r : String) : relpath (pjoin s r) s = r := by
  have h1 : (pjoin s r).data = (s ++ "/").data ++ r.data := data_append (s ++ "/") r
  have h2 : List.isPrefixOf (s ++ "/").data (pjoin s r).data = true := by
    rw [h1]
    exact isPrefixOf_self_append _ _
  show (if List.isPrefixOf (s ++ "/").data (pjoin s r).data then
      String.mk ((pjoin s r).data.drop (s ++ "/").data.length) else pjoin s r) = r
  rw [if_pos h2, h1, List.drop_left]

/-- Path joining is associative. -/
theorem pjoin_assoc (x y z : String) : pjoin (pjoin x y) z = pjoin x (pjoin y z) := by
  apply String.ext
  simp [pjoin, data_append, List.append_assoc]

/-! ## Claim C5: manifest repair -/

/-- C5: manifest repair is idempotent and its result always holds a master
manifest. Running it twice equals running it once; the master manifest the
result holds is byte for byte the pre-existing one when the file was already
present and the synthesized minimal one otherwise; and on a filesystem whose
top entry already is a master manifest the operation is a strict no-op. -/
theorem c5_ensure_manifest_idempotent (fs : FS) (dir c : String) :
    ensure_manifest (ensure_manifest fs dir) dir = ensure_manifest fs dir ∧
    List.lookup (pjoin dir "master.m3u8") (ensure_manifest fs dir) =
      some ((List.lookup (pjoin dir "master.m3u8") fs).getD masterManifestContent) ∧
    ensure_manifest ((pjoin dir "master.m3u8", c) :: fs) dir =
      (pjoin dir "master.m3u8", c) :: fs := by
  have hcons : ∀ (d : String) (l : FS),
      List.lookup (pjoin dir "master.m3u8") ((pjoin dir "master.m3u8", d) :: l) = some d := by
    intro d l
    simp [List.lookup]
  refine ⟨?_, ?_, ?_⟩
  · by_cases h : (List.lookup (pjoin dir "master.m3u8") fs).isSome = true
    · simp only [ensure_manifest, if_pos h]
    · simp only [ensure_manifest, if_neg h, hcons]
      simp
  · by_cases h : (List.lookup (pjoin dir "master.m3u8") fs).isSome = true
    · obtain ⟨v, hv⟩ := Option.isSome_iff_exists.mp h
      simp [ensure_manifest, hv]
    · have hnone : List.lookup (pjoin dir "master.m3u8") fs = none :=
        Option.not_isSome_iff_eq_none.mp h
      simp [ensure_manifest, hnone, hcons]
  · simp [ensure_manifest, hcons]

/-! ## Claim C6: rendition ordering -/

/-- C6: the low quality rendition is stream zero of the constructed command,
carrying the 640x360 decrease filter right after the stream zero filter
flag, with the high quality 1280x720 filter on stream one, the variant map
binding v0 before v1; and in the synthesized master manifest the variant
declarations list 640x360 before 1280x720, with the v0 sub-manifest line
before the v1 one. -/
theorem c6_rendition_order (input_path target_dir : String) :
    (hlsCmd input_path target_dir).get? 4 = some "-filter:v:0" ∧
    (hlsCmd input_path target_dir).get? 5 =
      some "scale=w=640:h=360:force_original_aspect_ratio=decrease" ∧
    (hlsCmd input_path target_dir).get? 22 = some "-filter:v:1" ∧
    (hlsCmd input_path target_dir).get? 23 =
      some "scale=w=1280:h=720:force_original_aspect_ratio=decrease" ∧
    (hlsCmd input_path target_dir).get? 49 = some "v:0,a:0 v:1,a:1" ∧
    streamVariantResolutions masterManifestContent = ["640x360".data, "1280x720".data] ∧
    (splitLines masterManifestContent.data).indexOf "v0/index.m3u8".data <
      (splitLines masterManifestContent.data).indexOf "v1/index.m3u8".data := by
  refine ⟨rfl, rfl, rfl, rfl, rfl, by decide, by decide⟩

/-! ## Claim C9: success layout and returned path -/

/-- C9: when the engine exits zero on a target directory allocated under the
streaming root, the job returns the master manifest path relative to the
streaming root, and the constructed command places each rendition into a
v-numbered subdirectory with zero-padded segment names and an index
sub-manifest, at four second VOD segments. -/
theorem c9_layout (base_dir sub input_path : String) (engine : List String → EngineRun)
    (fs : FS)
    (hexit : (engine (hlsCmd input_path (pjoin (HLS_DIR base_dir) sub))).exitCode = 0) :
    manifestOf (transcode_to_hls base_dir engine input_path
        (pjoin (HLS_DIR base_dir) sub) fs) =
      some (replaceBackslashes (pjoin sub "master.m3u8")) ∧
    (hlsCmd input_path (pjoin (HLS_DIR base_dir) sub)).get? 54 = some "-hls_time" ∧
    (hlsCmd input_path (pjoin (HLS_DIR base_dir) sub)).get? 55 = some "4" ∧
    (hlsCmd input_path (pjoin (HLS_DIR base_dir) sub)).get? 56 = some "-hls_playlist_type" ∧
    (hlsCmd input_path (pjoin (HLS_DIR base_dir) sub)).get? 57 = some "vod" ∧
    (hlsCmd input_path (pjoin (HLS_DIR base_dir) sub)).get? 58 = some "-hls_segment_filename" ∧
    (hlsCmd input_path (pjoin (HLS_DIR base_dir) sub)).get? 59 =
      some (pjoin (pjoin (HLS_DIR base_dir) sub) "v%v/seg_%03d.ts") ∧
    (hlsCmd input_path (pjoin (HLS_DIR base_dir) sub)).get? 60 =
      some (pjoin (pjoin (HLS_DIR base_dir) sub) "v%v/index.m3u8") := by
  refine ⟨?_, rfl, rfl, rfl, rfl, rfl, rfl, rfl⟩
  simp only [transcode_to_hls]
  rw [if_pos hexit]
  show some (replaceBackslashes (relpath
      (pjoin (pjoin (HLS_DIR base_dir) sub) "master.m3u8") (HLS_DIR base_dir))) = _
  rw [pjoin_assoc, relpath_pjoin]

/-- An engine whose runs always exit zero. -/
def c9Engine : List String → EngineRun :=
  fun _ => { exitCode := 0, stderrData := [], writes := [] }

/-- Witness for C9 at a concrete successful run into a directory under the
streaming root. -/
theorem c9_layout_witness :
    manifestOf (transcode_to_hls "app" c9Engine "in.mp4"
        (pjoin (HLS_DIR "app") "video-7") []) =
      some (replaceBackslashes (pjoin "video-7" "master.m3u8")) ∧
    (hlsCmd "in.mp4" (pjoin (HLS_DIR "app") "video-7")).get? 54 = some "-hls_time" ∧
    (hlsCmd "in.mp4" (pjoin (HLS_DIR "app") "video-7")).get? 55 = some "4" ∧
    (hlsCmd "in.mp4" (pjoin (HLS_DIR "app") "video-7")).get? 56 = some "-hls_playlist_type" ∧
    (hlsCmd "in.mp4" (pjoin (HLS_DIR "app") "video-7")).get? 57 = some "vod" ∧
    (hlsCmd "in.mp4" (pjoin (HLS_DIR "app") "video-7")).get? 58 = some "-hls_segment_filename" ∧
    (hlsCmd "in.mp4" (pjoin (HLS_DIR "app") "video-7")).get? 59 =
      some (pjoin (pjoin (HLS_DIR "app") "video-7") "v%v/seg_%03d.ts") ∧
    (hlsCmd "in.mp4" (pjoin (HLS_DIR "app") "video-7")).get? 60 =
      some (pjoin (pjoin (HLS_DIR "app") "video-7") "v%v/index.m3u8") :=
  c9_layout "app" "video-7" "in.mp4" c9Engine [] rfl

/-! ## Claim C10: the file-type gate -/

/-- Dropping the last element of a list while all elements satisfy a
predicate until a failing element keeps exactly the satisfying run. -/
theorem takeWhile_append_stop (p : Char → Bool) (l : List Char)
    (hl : ∀ x ∈ l, p x = true) (y : Char) (hy : p y = false) (t : List Char) :
    (l ++ y :: t).takeWhile p = l := by
  induction l with
  | nil => simp [List.takeWhile, hy]
  | cons c cs ih =>
    have hc : p c = true := hl c (List.mem_cons_self c cs)
    simp only [List.cons_append, List.takeWhile, hc]
    exact congrArg (List.cons c) (ih (fun x hx => hl x (List.mem_cons_of_mem c hx)))

/-- On a list decomposed at its last dot, afterLastDot returns exactly the
dot-free tail. -/
theorem afterLastDot_spec (a b : List Char) (hb : '.' ∉ b) :
    afterLastDot (a ++ '.' :: b) = b := by
  unfold afterLastDot
  rw [List.reverse_append, List.reverse_cons, List.append_assoc, List.singleton_append]
  rw [takeWhile_append_stop _ _ ?hall '.' (by decide) _]
  · exact List.reverse_reverse b
  case hall =>
    intro x hx
    have hxb : x ∈ b := List.mem_reverse.mp hx
    have : x ≠ '.' := fun hcontra => hb (hcontra ▸ hxb)
    simp [bne, this]

/-- A list containing a dot splits at its last dot: some decomposition with
a dot-free tail. -/
theorem mem_decomp_last (l : List Char) (h : '.' ∈ l) :
    ∃ a b, l = a ++ '.' :: b ∧ '.' ∉ b := by
  induction l with
  | nil => cases h
  | cons c cs ih =>
    by_cases hcs : '.' ∈ cs
    · obtain ⟨a, b, hab, hb⟩ := ih hcs
      exact ⟨c :: a, b, by rw [hab]; rfl, hb⟩
    · have hc : c = '.' := by
        rcases List.mem_cons.mp h with h1 | h2
        · exact h1.symm
        · exact absurd h2 hcs
      exact ⟨[], cs, by simp [hc], hcs⟩

/-- The specification-side reading of the file-type gate: the name
decomposes as a stem, a dot and a dot-free extension whose lowercasing is in
the allowed set. -/
def allowedSpec (filename : String) : Prop :=
  ∃ a b : List Char, filename.data = a ++ '.' :: b ∧ '.' ∉ b ∧
    ALLOWED_EXTENSIONS.contains (String.mk (b.map Char.toLower)) = true

/-- C10: the gate accepts a filename exactly when it contains a dot and the
lowercased run after the last dot is one of the five allowed extensions; in
particular a dot-free name is rejected and the match is case
insensitive. -/
theorem c10_allowed_file_iff (filename : String) :
    allowed_file filename = true ↔ allowedSpec filename := by
  unfold allowed_file allowedSpec
  rw [Bool.and_eq_true]
  constructor
  · rintro ⟨h1, h2⟩
    have hmem : '.' ∈ filename.data := by
      simpa [List.contains] using h1
    obtain ⟨a, b, hd, hb⟩ := mem_decomp_last _ hmem
    refine ⟨a, b, hd, hb, ?_⟩
    rw [hd, afterLastDot_spec a b hb] at h2
    exact h2
  · rintro ⟨a, b, hd, hb, hin⟩
    constructor
    · rw [hd]
      simp [List.contains]
    · rw [hd, afterLastDot_spec a b hb]
      exact hin

/-! ## Claim C8: decrease scaling -/

/-- C8: both rendition filters of the constructed command carry the decrease
semantics at the 640x360 and 1280x720 boxes, and the modelled decrease
semantics fits the output inside the target box, never exceeds the original
dimensions, preserves the aspect ratio, and is the largest same-ratio
candidate doing so. -/
theorem c8_scale_filters (input_path target_dir : String) (tw th w h w2 h2 : ℚ)
    (_htw : 0 < tw) (_hth : 0 < th) (hw : 0 < w) (hh : 0 < h)
    (haspect : w2 * h = h2 * w) (hbw : w2 ≤ tw) (hbh : h2 ≤ th)
    (how : w2 ≤ w) (_hoh : h2 ≤ h) :
    (hlsCmd input_path target_dir).get? 5 =
      some "scale=w=640:h=360:force_original_aspect_ratio=decrease" ∧
    (hlsCmd input_path target_dir).get? 23 =
      some "scale=w=1280:h=720:force_original_aspect_ratio=decrease" ∧
    (scaleDecrease tw th w h).1 ≤ w ∧
    (scaleDecrease tw th w h).2 ≤ h ∧
    (scaleDecrease tw th w h).1 ≤ tw ∧
    (scaleDecrease tw th w h).2 ≤ th ∧
    (scaleDecrease tw th w h).1 * h = (scaleDecrease tw th w h).2 * w ∧
    w2 ≤ (scaleDecrease tw th w h).1 := by
  have e1 : (scaleDecrease tw th w h).1 = min 1 (min (tw / w) (th / h)) * w := rfl
  have e2 : (scaleDecrease tw th w h).2 = min 1 (min (tw / w) (th / h)) * h := rfl
  have hs1 : min 1 (min (tw / w) (th / h)) ≤ 1 := min_le_left _ _
  have hs2 : min 1 (min (tw / w) (th / h)) ≤ tw / w :=
    le_trans (min_le_right _ _) (min_le_left _ _)
  have hs3 : min 1 (min (tw / w) (th / h)) ≤ th / h :=
    le_trans (min_le_right _ _) (min_le_right _ _)
  refine ⟨rfl, rfl, ?_, ?_, ?_, ?_, ?_, ?_⟩
  · rw [e1]
    calc min 1 (min (tw / w) (th / h)) * w ≤ 1 * w :=
          mul_le_mul_of_nonneg_right hs1 hw.le
      _ = w := one_mul w
  · rw [e2]
    calc min 1 (min (tw / w) (th / h)) * h ≤ 1 * h :=
          mul_le_mul_of_nonneg_right hs1 hh.le
      _ = h := one_mul h
  · rw [e1]
    calc min 1 (min (tw / w) (th / h)) * w ≤ tw / w * w :=
          mul_le_mul_of_nonneg_right hs2 hw.le
      _ = tw := div_mul_cancel₀ tw hw.ne'
  · rw [e2]
    calc min 1 (min (tw / w) (th / h)) * h ≤ th / h * h :=
          mul_le_mul_of_nonneg_right hs3 hh.le
      _ = th := div_mul_cancel₀ th hh.ne'
  · rw [e1, e2]
    ring
  · rw [e1]
    rw [min_mul_of_nonneg _ _ hw.le, min_mul_of_nonneg _ _ hw.le]
    refine le_min ?_ (le_min ?_ ?_)
    · rw [one_mul]
      exact how
    · rw [div_mul_cancel₀ tw hw.ne']
      exact hbw
    · rw [div_mul_eq_mul_div, le_div_iff₀ hh]
      calc w2 * h = h2 * w := haspect
        _ ≤ th * w := mul_le_mul_of_nonneg_right hbh hw.le

/-- Witness for C8 at a 1920x1080 original scaled into the 640x360 box, with
640x360 itself as the competing same-ratio candidate. -/
theorem c8_scale_filters_witness :
    (hlsCmd "in.mp4" "app/hls/z").get? 5 =
      some "scale=w=640:h=360:force_original_aspect_ratio=decrease" ∧
    (hlsCmd "in.mp4" "app/hls/z").get? 23 =
      some "scale=w=1280:h=720:force_original_aspect_ratio=decrease" ∧
    (scaleDecrease 640 360 1920 1080).1 ≤ 1920 ∧
    (scaleDecrease 640 360 1920 1080).2 ≤ 1080 ∧
    (scaleDecrease 640 360 1920 1080).1 ≤ 640 ∧
    (scaleDecrease 640 360 1920 1080).2 ≤ 360 ∧
    (scaleDecrease 640 360 1920 1080).1 * 1080 = (scaleDecrease 640 360 1920 1080).2 * 1920 ∧
    (640 : ℚ) ≤ (scaleDecrease 640 360 1920 1080).1 :=
  c8_scale_filters "in.mp4" "app/hls/z" 640 360 1920 1080 640 360
    (by norm_num) (by norm_num) (by norm_num) (by norm_num)
    (by norm_num) (by norm_num) (by norm_num) (by norm_num) (by norm_num)

end Mitabo
